import Mathlib

/-!
# Verification of the sqlite-backup stepping harness (`cmd/backup.go`)

The program under study drives SQLite's incremental backup API and checks
page-accounting invariants after every step.  We embed `main` of
`cmd/backup.go` as a function over an oracle `Engine` describing the
external world (the SQLite engine, the clock, the outcome of `sql.Open`
and `Ping`), and a fuel bound for the stepping loop (the Go loop can run
forever against an adversarial engine, e.g. one whose clock never
advances and whose `Remaining` keeps decreasing past zero).

Modelling notes, matched line by line against `cmd/backup.go`:

* Calls into the engine are indexed by call order.  `Step` call `0` is the
  initial `backup.Step(0)` probe; `Step` call `i + 1` is the `backup.Step(1)`
  of loop iteration `i`.  Likewise `pageCount`/`remaining` query `0` is the
  initial read, query `i + 1` the read of loop iteration `i`, and (on the
  normal loop exit after `n` one-page steps) query `n + 1` the final read.
  `timeNow 0` is the `time.Now().Unix()` stored in `startTime`; `timeNow
  (i + 1)` is the deadline read of loop iteration `i`.
* `log.Fatal` / `log.Fatalf` print and then call `os.Exit(1)`.  `os.Exit`
  terminates the process immediately: deferred functions (here the two
  `defer …Close()` calls) are NOT run.  Hence every fatal outcome below
  records `srcClosed = false` and `dstClosed = false`, while the normal
  return runs both defers.
* `srcDb.Ping()` and `dstDb.Ping()` are called with their error result
  discarded: the code neither branches on it nor logs it.  The oracle
  still carries `pingSrcFails`/`pingDstFails` so that this discarding is a
  provable fact rather than an omission.
* The run's observable outcome is a `RunResult` trace: which fatal exit
  (if any) was taken, which resources were opened/closed, whether the
  backup session was created, the page-count arguments of the issued
  `Step` calls in order, and how many times `Finish` was called.
-/

namespace SqliteBackup

/-- The external world as seen by `main`: results of `sql.Open`, `Ping`,
the connect-hook capture list, `Backup`, and the per-call results of
`Step`/`PageCount`/`Remaining`/`time.Now().Unix()`/`Finish`. -/
structure Engine where
  /-- `sql.Open(driverName, *sourceFile)` returns a non-nil error. -/
  openSrcFails : Bool
  /-- `sql.Open(driverName, *destFile)` returns a non-nil error. -/
  openDstFails : Bool
  /-- `srcDb.Ping()` returns a non-nil error (the code discards it). -/
  pingSrcFails : Bool
  /-- `dstDb.Ping()` returns a non-nil error (the code discards it). -/
  pingDstFails : Bool
  /-- `len(driverConns)` after the two opens. -/
  connCount : Nat
  /-- whether `driverConns[i]` is nil. -/
  connIsNil : Nat → Bool
  /-- `destDbDriverConn.Backup("main", srcDbDriverConn, "main")` errors. -/
  backupFails : Bool
  /-- the error result of the i-th `backup.Step` call. -/
  stepErr : Nat → Bool
  /-- the `isDone` result of the i-th `backup.Step` call. -/
  stepDone : Nat → Bool
  /-- the result of the i-th `backup.PageCount()` query (Go `int`). -/
  pageCount : Nat → Int
  /-- the result of the i-th `backup.Remaining()` query (Go `int`). -/
  remaining : Nat → Int
  /-- the i-th `time.Now().Unix()` reading (Go `int64`). -/
  timeNow : Nat → Int
  /-- `backup.Finish()` returns a non-nil error. -/
  finishFails : Bool

/-- Which of the `log.Fatal`/`log.Fatalf` exits of `main` was taken,
one constructor per call site, in source order. -/
inductive FatalKind where
  | openSrcFailed
  | openDstFailed
  | wrongConnCount
  | srcConnNil
  | dstConnNil
  | backupCreateFailed
  | initialStepFailed
  | unexpectedlyDone
  | badInitialPageCount
  | badInitialRemaining
  | initialMismatch
  | stepFailed
  | pageCountChanged
  | unexpectedRemaining
  | timeoutExceeded
  | finalPageCountDiffers
  | finalRemainingNonzero
  | finishFailed
deriving DecidableEq

/-- Observable trace of one run of `main`. -/
structure RunResult where
  /-- `some k` when the run terminated through the fatal exit `k`,
  `none` on the normal return path. -/
  fatal : Option FatalKind
  /-- `sql.Open` for the source succeeded (a handle exists). -/
  srcOpened : Bool
  /-- `sql.Open` for the destination succeeded. -/
  dstOpened : Bool
  /-- the deferred `srcDb.Close()` actually ran before the process ended. -/
  srcClosed : Bool
  /-- the deferred `dstDb.Close()` actually ran before the process ended. -/
  dstClosed : Bool
  /-- `destDbDriverConn.Backup(...)` returned a session. -/
  backupCreated : Bool
  /-- the page-count arguments of the issued `backup.Step` calls, in order
  (`0` for the probe, `1` for each loop step). -/
  stepSizes : List Nat
  /-- how many times `backup.Finish()` was called. -/
  finishCalls : Nat
deriving DecidableEq

/-- `var timeout int64 = 10` of `cmd/backup.go`. -/
def timeout : Int := 10

/-- Outcome shared by every `log.Fatal` exit: `os.Exit(1)` skips the
deferred `Close` calls, and `Finish` was never reached.  Branch-specific
fields are overridden at each call site. -/
def fatalResult (k : FatalKind) : RunResult where
  fatal := some k
  srcOpened := true
  dstOpened := true
  srcClosed := false
  dstClosed := false
  backupCreated := false
  stepSizes := []
  finishCalls := 0

/-- The `for { ... }` stepping loop of `main`.  Arguments: the oracle, the
captured `initialPageCount` and `startTime`, remaining fuel, the index `i`
of the current iteration (its `Step` call is call `i + 1`), and the Go
variable `latestRemaining`.  Returns `none` when fuel runs out (the Go
loop diverges), otherwise `some (res, l)` where `l` is the list of
page-count arguments of the `Step` calls the loop issued (all `1`) and
`res` is `some k` for a fatal exit `k`, `none` when the loop ended via
`break` on `isDone`. -/
def loop (eng : Engine) (initialPageCount startTime : Int) :
    Nat → Nat → Int → Option (Option FatalKind × List Nat)
  | 0, _, _ => none
  | fuel + 1, i, latestRemaining =>
    -- isDone, err = backup.Step(1)
    if eng.stepErr (i + 1) then some (some .stepFailed, [1])
    -- currentPageCount := backup.PageCount(); compare to initialPageCount
    else if eng.pageCount (i + 1) ≠ initialPageCount then
      some (some .pageCountChanged, [1])
    -- currentRemaining := backup.Remaining(); expected = latestRemaining - 1
    else if eng.remaining (i + 1) ≠ latestRemaining - 1 then
      some (some .unexpectedRemaining, [1])
    -- if isDone { break }
    else if eng.stepDone (i + 1) then some (none, [1])
    -- if (time.Now().Unix() - startTime) > timeout { log.Fatal(...) }
    else if eng.timeNow (i + 1) - startTime > timeout then
      some (some .timeoutExceeded, [1])
    -- latestRemaining = currentRemaining; next iteration
    else
      match loop eng initialPageCount startTime fuel (i + 1) (eng.remaining (i + 1)) with
      | none => none
      | some (res, l) => some (res, 1 :: l)

/-- Everything of `main` after the stepping loop, applied to the loop's
result: the final `PageCount`/`Remaining` checks and `backup.Finish()`.
When the loop issued `l.length` one-page steps the final queries are
query number `l.length + 1`. -/
def afterLoop (eng : Engine) (initialPageCount : Int) :
    Option (Option FatalKind × List Nat) → Option RunResult
  | none => none
  | some (some k, l) =>
      some { fatalResult k with backupCreated := true, stepSizes := 0 :: l }
  | some (none, l) =>
      -- finalPageCount := backup.PageCount()
      if eng.pageCount (l.length + 1) ≠ initialPageCount then
        some { fatalResult .finalPageCountDiffers with
                 backupCreated := true, stepSizes := 0 :: l }
      -- finalRemaining := backup.Remaining()
      else if eng.remaining (l.length + 1) ≠ 0 then
        some { fatalResult .finalRemainingNonzero with
                 backupCreated := true, stepSizes := 0 :: l }
      -- err = backup.Finish()
      else if eng.finishFails then
        some { fatalResult .finishFailed with
                 backupCreated := true, stepSizes := 0 :: l, finishCalls := 1 }
      else
        -- normal return: deferred dstDb.Close() and srcDb.Close() run
        some { fatal := none, srcOpened := true, dstOpened := true,
               srcClosed := true, dstClosed := true, backupCreated := true,
               stepSizes := 0 :: l, finishCalls := 1 }

/-- `main` of `cmd/backup.go` against the oracle `eng`, with `fuel`
bounding the stepping loop.  `none` models divergence of the loop. -/
def main (eng : Engine) (fuel : Nat) : Option RunResult :=
  -- srcDb, err := sql.Open(driverName, *sourceFile)
  if eng.openSrcFails then
    some { fatalResult .openSrcFailed with srcOpened := false, dstOpened := false }
  else
  -- defer srcDb.Close() registered; srcDb.Ping() called, error discarded
  -- dstDb, err := sql.Open(driverName, *destFile)
  if eng.openDstFails then
    some { fatalResult .openDstFailed with dstOpened := false }
  else
  -- defer dstDb.Close() registered; dstDb.Ping() called, error discarded
  -- if len(driverConns) != 2 { log.Fatalf(...) }
  if eng.connCount ≠ 2 then some (fatalResult .wrongConnCount)
  -- srcDbDriverConn := driverConns[0]; if srcDbDriverConn == nil { ... }
  else if eng.connIsNil 0 then some (fatalResult .srcConnNil)
  -- destDbDriverConn := driverConns[1]; if destDbDriverConn == nil { ... }
  else if eng.connIsNil 1 then some (fatalResult .dstConnNil)
  -- backup, err := destDbDriverConn.Backup("main", srcDbDriverConn, "main")
  else if eng.backupFails then some (fatalResult .backupCreateFailed)
  -- isDone, err := backup.Step(0)
  else if eng.stepErr 0 then
    some { fatalResult .initialStepFailed with backupCreated := true, stepSizes := [0] }
  -- if isDone { log.Fatal("Backup is unexpectedly done.") }
  else if eng.stepDone 0 then
    some { fatalResult .unexpectedlyDone with backupCreated := true, stepSizes := [0] }
  -- initialPageCount := backup.PageCount(); if initialPageCount <= 0 { ... }
  else if eng.pageCount 0 ≤ 0 then
    some { fatalResult .badInitialPageCount with backupCreated := true, stepSizes := [0] }
  -- initialRemaining := backup.Remaining(); if initialRemaining <= 0 { ... }
  else if eng.remaining 0 ≤ 0 then
    some { fatalResult .badInitialRemaining with backupCreated := true, stepSizes := [0] }
  -- if initialRemaining != initialPageCount { log.Fatalf(...) }
  else if eng.remaining 0 ≠ eng.pageCount 0 then
    some { fatalResult .initialMismatch with backupCreated := true, stepSizes := [0] }
  else
    -- startTime := time.Now().Unix(); latestRemaining := initialRemaining
    afterLoop eng (eng.pageCount 0)
      (loop eng (eng.pageCount 0) (eng.timeNow 0) fuel 0 (eng.remaining 0))

/-- A well-behaved engine backing a source store of `n` pages: every call
succeeds, the page count is always `n`, `remaining` drops by one per
one-page step (clamped at 0), the `i`-th step is done once `n ≤ i`, and
the clock stands still. -/
def goodEngine (n : Nat) : Engine where
  openSrcFails := false
  openDstFails := false
  pingSrcFails := false
  pingDstFails := false
  connCount := 2
  connIsNil := fun _ => false
  backupFails := false
  stepErr := fun _ => false
  stepDone := fun i => n ≤ i
  pageCount := fun _ => (n : Int)
  remaining := fun i => ((n - i : Nat) : Int)
  timeNow := fun _ => 0
  finishFails := false

/-- The successful trace of `main` against `goodEngine n`. -/
def goodRun (n : Nat) : RunResult where
  fatal := none
  srcOpened := true
  dstOpened := true
  srcClosed := true
  dstClosed := true
  backupCreated := true
  stepSizes := 0 :: List.replicate n 1
  finishCalls := 1

/-- A 5-page engine whose clock jumps past the deadline after `startTime`
is taken: the first loop iteration trips the timeout check. -/
def slowClockEngine : Engine :=
  { goodEngine 5 with timeNow := fun i => if i = 0 then 0 else 100 }

/-- A 1-page engine whose clock jumps past the deadline after `startTime`
is taken, but whose single one-page step already reports done. -/
def lateDoneEngine : Engine :=
  { goodEngine 1 with timeNow := fun i => if i = 0 then 0 else 100 }

/-- An engine whose destination `sql.Open` fails after the source open
succeeded. -/
def openDstFailEngine : Engine :=
  { goodEngine 2 with openDstFails := true }

/-- A well-behaved 4-page engine whose two `Ping` calls both fail. -/
def pingFailEngine : Engine :=
  { goodEngine 4 with pingSrcFails := true, pingDstFails := true }

/-- An engine whose connect hook captured three connections. -/
def badConnEngine : Engine :=
  { goodEngine 2 with connCount := 3 }

/-- Setup succeeded up to and including session creation: both opens, the
captured-connection checks and `Backup` itself. -/
abbrev setupOk (eng : Engine) : Prop :=
  eng.openSrcFails = false ∧ eng.openDstFails = false ∧ eng.connCount = 2 ∧
  eng.connIsNil 0 = false ∧ eng.connIsNil 1 = false ∧ eng.backupFails = false

/-- The probe step's assertions all pass: not done, both initial counters
strictly positive and equal. -/
abbrev probeOk (eng : Engine) : Prop :=
  eng.stepDone 0 = false ∧ 0 < eng.pageCount 0 ∧ 0 < eng.remaining 0 ∧
  eng.remaining 0 = eng.pageCount 0

/-! ## Helper lemmas about the stepping loop -/

/-- Every `Step` call issued by the loop requests exactly one page. -/
theorem loop_ones (eng : Engine) (ipc st : Int) :
    ∀ (fuel i : Nat) (r : Int) (res : Option FatalKind) (l : List Nat),
      loop eng ipc st fuel i r = some (res, l) → l = List.replicate l.length 1 := by
  intro fuel
  induction fuel with
  | zero => intro i r res l h; simp [loop] at h
  | succ n ih =>
    intro i r res l h
    simp only [loop] at h
    split at h
    · simp only [Option.some.injEq, Prod.mk.injEq] at h
      obtain ⟨-, rfl⟩ := h; rfl
    split at h
    · simp only [Option.some.injEq, Prod.mk.injEq] at h
      obtain ⟨-, rfl⟩ := h; rfl
    split at h
    · simp only [Option.some.injEq, Prod.mk.injEq] at h
      obtain ⟨-, rfl⟩ := h; rfl
    split at h
    · simp only [Option.some.injEq, Prod.mk.injEq] at h
      obtain ⟨-, rfl⟩ := h; rfl
    split at h
    · simp only [Option.some.injEq, Prod.mk.injEq] at h
      obtain ⟨-, rfl⟩ := h; rfl
    · split at h
      · exact absurd h (by simp)
      · next res' l' heq =>
          simp only [Option.some.injEq, Prod.mk.injEq] at h
          obtain ⟨rfl, rfl⟩ := h
          have h1 := ih _ _ _ _ heq
          simp only [List.length_cons, List.replicate_succ]
          exact congrArg (1 :: ·) h1

/-- The loop exits via `break` only right after a `Step` call that
reported `isDone`; that call is call `i + l.length` when the loop started
at iteration `i` and issued `l.length` one-page steps. -/
theorem loop_done_last (eng : Engine) (ipc st : Int) :
    ∀ (fuel i : Nat) (r : Int) (l : List Nat),
      loop eng ipc st fuel i r = some (none, l) →
      l ≠ [] ∧ eng.stepDone (i + l.length) = true := by
  intro fuel
  induction fuel with
  | zero => intro i r l h; simp [loop] at h
  | succ n ih =>
    intro i r l h
    simp only [loop] at h
    split at h
    · simp at h
    split at h
    · simp at h
    split at h
    · simp at h
    split at h
    · next hdone =>
        simp only [Option.some.injEq, Prod.mk.injEq] at h
        obtain ⟨-, rfl⟩ := h
        exact ⟨by simp, by simpa using hdone⟩
    split at h
    · simp at h
    · split at h
      · exact absurd h (by simp)
      · next res' l' heq =>
          simp only [Option.some.injEq, Prod.mk.injEq] at h
          obtain ⟨rfl, rfl⟩ := h
          have h1 := (ih _ _ _ heq).2
          refine ⟨by simp, ?_⟩
          have e : i + (1 :: l').length = i + 1 + l'.length := by
            simp only [List.length_cons]; omega
          rw [e]; exact h1

/-- The only fatal exits the loop itself can take are the step error, the
two per-step invariant checks and the deadline check. -/
theorem loop_kinds (eng : Engine) (ipc st : Int) :
    ∀ (fuel i : Nat) (r : Int) (k : FatalKind) (l : List Nat),
      loop eng ipc st fuel i r = some (some k, l) →
      k = FatalKind.stepFailed ∨ k = FatalKind.pageCountChanged ∨
      k = FatalKind.unexpectedRemaining ∨ k = FatalKind.timeoutExceeded := by
  intro fuel
  induction fuel with
  | zero => intro i r k l h; simp [loop] at h
  | succ n ih =>
    intro i r k l h
    simp only [loop] at h
    split at h
    · simp only [Option.some.injEq, Prod.mk.injEq] at h
      exact Or.inl h.1.symm
    split at h
    · simp only [Option.some.injEq, Prod.mk.injEq, Option.some.injEq] at h
      exact Or.inr (Or.inl h.1.symm)
    split at h
    · simp only [Option.some.injEq, Prod.mk.injEq, Option.some.injEq] at h
      exact Or.inr (Or.inr (Or.inl h.1.symm))
    split at h
    · simp at h
    split at h
    · simp only [Option.some.injEq, Prod.mk.injEq, Option.some.injEq] at h
      exact Or.inr (Or.inr (Or.inr h.1.symm))
    · split at h
      · exact absurd h (by simp)
      · next res' l' heq =>
          simp only [Option.some.injEq, Prod.mk.injEq] at h
          obtain ⟨rfl, rfl⟩ := h
          exact ih _ _ _ _ heq

/-- The page-count arguments of every issued `Step` call, the `Close` and
`Finish` bookkeeping: facts holding on every terminating run of `main`,
whatever the engine does.  `Finish` runs exactly once on the normal path
and on the path where `Finish` itself errors, never otherwise; the
deferred `Close` calls run exactly on the normal path; the step trace is
empty or one probe followed by one-page steps. -/
theorem main_shape (eng : Engine) (fuel : Nat) (r : RunResult)
    (h : main eng fuel = some r) :
    (r.finishCalls = 1 ↔ (r.fatal = none ∨ r.fatal = some FatalKind.finishFailed)) ∧
    r.finishCalls ≤ 1 ∧
    (r.srcClosed = true ↔ r.fatal = none) ∧
    (r.dstClosed = true ↔ r.fatal = none) ∧
    (r.stepSizes = [] ∨ ∃ m, r.stepSizes = 0 :: List.replicate m 1) := by
  unfold main at h
  by_cases hb1 : eng.openSrcFails = true
  · rw [if_pos hb1] at h
    injection h with h; subst h
    exact ⟨by decide, by decide, by decide, by decide, Or.inl rfl⟩
  rw [if_neg hb1] at h
  by_cases hb2 : eng.openDstFails = true
  · rw [if_pos hb2] at h
    injection h with h; subst h
    exact ⟨by decide, by decide, by decide, by decide, Or.inl rfl⟩
  rw [if_neg hb2] at h
  by_cases hb3 : eng.connCount ≠ 2
  · rw [if_pos hb3] at h
    injection h with h; subst h
    exact ⟨by decide, by decide, by decide, by decide, Or.inl rfl⟩
  rw [if_neg hb3] at h
  by_cases hb4 : eng.connIsNil 0 = true
  · rw [if_pos hb4] at h
    injection h with h; subst h
    exact ⟨by decide, by decide, by decide, by decide, Or.inl rfl⟩
  rw [if_neg hb4] at h
  by_cases hb5 : eng.connIsNil 1 = true
  · rw [if_pos hb5] at h
    injection h with h; subst h
    exact ⟨by decide, by decide, by decide, by decide, Or.inl rfl⟩
  rw [if_neg hb5] at h
  by_cases hb6 : eng.backupFails = true
  · rw [if_pos hb6] at h
    injection h with h; subst h
    exact ⟨by decide, by decide, by decide, by decide, Or.inl rfl⟩
  rw [if_neg hb6] at h
  by_cases hb7 : eng.stepErr 0 = true
  · rw [if_pos hb7] at h
    injection h with h; subst h
    exact ⟨by decide, by decide, by decide, by decide, Or.inr ⟨0, rfl⟩⟩
  rw [if_neg hb7] at h
  by_cases hb8 : eng.stepDone 0 = true
  · rw [if_pos hb8] at h
    injection h with h; subst h
    exact ⟨by decide, by decide, by decide, by decide, Or.inr ⟨0, rfl⟩⟩
  rw [if_neg hb8] at h
  by_cases hb9 : eng.pageCount 0 ≤ 0
  · rw [if_pos hb9] at h
    injection h with h; subst h
    exact ⟨by decide, by decide, by decide, by decide, Or.inr ⟨0, rfl⟩⟩
  rw [if_neg hb9] at h
  by_cases hb10 : eng.remaining 0 ≤ 0
  · rw [if_pos hb10] at h
    injection h with h; subst h
    exact ⟨by decide, by decide, by decide, by decide, Or.inr ⟨0, rfl⟩⟩
  rw [if_neg hb10] at h
  by_cases hb11 : eng.remaining 0 ≠ eng.pageCount 0
  · rw [if_pos hb11] at h
    injection h with h; subst h
    exact ⟨by decide, by decide, by decide, by decide, Or.inr ⟨0, rfl⟩⟩
  rw [if_neg hb11] at h
  generalize hres :
    loop eng (eng.pageCount 0) (eng.timeNow 0) fuel 0 (eng.remaining 0) = L at h
  rcases L with - | ⟨res0, l⟩
  · simp [afterLoop] at h
  rcases res0 with - | k
  · -- loop ended via break on isDone; final checks and Finish follow
    simp only [afterLoop] at h
    have hones :=
      loop_ones eng (eng.pageCount 0) (eng.timeNow 0) fuel 0 (eng.remaining 0) none l hres
    by_cases hc1 : eng.pageCount (l.length + 1) ≠ eng.pageCount 0
    · rw [if_pos hc1] at h
      injection h with h; subst h
      refine ⟨by simp [fatalResult], by simp [fatalResult], by simp [fatalResult], by simp [fatalResult], Or.inr ⟨l.length, ?_⟩⟩
      show 0 :: l = 0 :: List.replicate l.length 1
      rw [← hones]
    rw [if_neg hc1] at h
    by_cases hc2 : eng.remaining (l.length + 1) ≠ 0
    · rw [if_pos hc2] at h
      injection h with h; subst h
      refine ⟨by simp [fatalResult], by simp [fatalResult], by simp [fatalResult], by simp [fatalResult], Or.inr ⟨l.length, ?_⟩⟩
      show 0 :: l = 0 :: List.replicate l.length 1
      rw [← hones]
    rw [if_neg hc2] at h
    by_cases hc3 : eng.finishFails = true
    · rw [if_pos hc3] at h
      injection h with h; subst h
      refine ⟨by simp [fatalResult], by simp [fatalResult], by simp [fatalResult], by simp [fatalResult], Or.inr ⟨l.length, ?_⟩⟩
      show 0 :: l = 0 :: List.replicate l.length 1
      rw [← hones]
    · rw [if_neg hc3] at h
      injection h with h; subst h
      refine ⟨by simp [fatalResult], by simp [fatalResult], by simp [fatalResult], by simp [fatalResult], Or.inr ⟨l.length, ?_⟩⟩
      show 0 :: l = 0 :: List.replicate l.length 1
      rw [← hones]
  · -- loop took one of its fatal exits
    simp only [afterLoop] at h
    injection h with h; subst h
    have hones :=
      loop_ones eng (eng.pageCount 0) (eng.timeNow 0) fuel 0 (eng.remaining 0) (some k) l hres
    have hk :=
      loop_kinds eng (eng.pageCount 0) (eng.timeNow 0) fuel 0 (eng.remaining 0) k l hres
    have hk' : ¬ k = FatalKind.finishFailed := by
      rcases hk with rfl | rfl | rfl | rfl <;> simp
    refine ⟨?_, by simp [fatalResult], ?_, ?_, Or.inr ⟨l.length, ?_⟩⟩
    · show 0 = 1 ↔ (some k = none ∨ some k = some FatalKind.finishFailed)
      simp [hk']
    · show false = true ↔ some k = none
      simp
    · show false = true ↔ some k = none
      simp
    · show 0 :: l = 0 :: List.replicate l.length 1
      rw [← hones]

/-- With setup complete and the probe `Step(0)` call itself succeeding,
the run takes exactly one of five shapes: one of the four probe-stage
fatal exits, in source order, or (all probe assertions passed) the
stepping loop entered with the captured initial values. -/
theorem main_probe_cases (eng : Engine) (fuel : Nat)
    (hs : setupOk eng) (hp : eng.stepErr 0 = false) :
    (eng.stepDone 0 = true ∧
       main eng fuel = some { fatalResult .unexpectedlyDone with
                                backupCreated := true, stepSizes := [0] }) ∨
    (eng.stepDone 0 = false ∧ eng.pageCount 0 ≤ 0 ∧
       main eng fuel = some { fatalResult .badInitialPageCount with
                                backupCreated := true, stepSizes := [0] }) ∨
    (eng.stepDone 0 = false ∧ 0 < eng.pageCount 0 ∧ eng.remaining 0 ≤ 0 ∧
       main eng fuel = some { fatalResult .badInitialRemaining with
                                backupCreated := true, stepSizes := [0] }) ∨
    (eng.stepDone 0 = false ∧ 0 < eng.pageCount 0 ∧ 0 < eng.remaining 0 ∧
       eng.remaining 0 ≠ eng.pageCount 0 ∧
       main eng fuel = some { fatalResult .initialMismatch with
                                backupCreated := true, stepSizes := [0] }) ∨
    (probeOk eng ∧
       main eng fuel = afterLoop eng (eng.pageCount 0)
         (loop eng (eng.pageCount 0) (eng.timeNow 0) fuel 0 (eng.remaining 0))) := by
  obtain ⟨s1, s2, s3, s4, s5, s6⟩ := hs
  have hm : main eng fuel =
      (if eng.stepDone 0 then
         some { fatalResult .unexpectedlyDone with
                  backupCreated := true, stepSizes := [0] }
       else if eng.pageCount 0 ≤ 0 then
         some { fatalResult .badInitialPageCount with
                  backupCreated := true, stepSizes := [0] }
       else if eng.remaining 0 ≤ 0 then
         some { fatalResult .badInitialRemaining with
                  backupCreated := true, stepSizes := [0] }
       else if eng.remaining 0 ≠ eng.pageCount 0 then
         some { fatalResult .initialMismatch with
                  backupCreated := true, stepSizes := [0] }
       else
         afterLoop eng (eng.pageCount 0)
           (loop eng (eng.pageCount 0) (eng.timeNow 0) fuel 0 (eng.remaining 0))) := by
    unfold main
    rw [if_neg (by simp [s1]), if_neg (by simp [s2]), if_neg (by simp [s3]),
        if_neg (by simp [s4]), if_neg (by simp [s5]), if_neg (by simp [s6]),
        if_neg (by simp [hp])]
  by_cases hd : eng.stepDone 0 = true
  · exact Or.inl ⟨hd, by rw [hm, if_pos hd]⟩
  have hd' : eng.stepDone 0 = false := by simpa using hd
  by_cases h9 : eng.pageCount 0 ≤ 0
  · exact Or.inr (Or.inl ⟨hd', h9, by rw [hm, if_neg hd, if_pos h9]⟩)
  have h9' : 0 < eng.pageCount 0 := by omega
  by_cases h10 : eng.remaining 0 ≤ 0
  · exact Or.inr (Or.inr (Or.inl ⟨hd', h9', h10,
      by rw [hm, if_neg hd, if_neg h9, if_pos h10]⟩))
  have h10' : 0 < eng.remaining 0 := by omega
  by_cases h11 : eng.remaining 0 ≠ eng.pageCount 0
  · exact Or.inr (Or.inr (Or.inr (Or.inl ⟨hd', h9', h10', h11,
      by rw [hm, if_neg hd, if_neg h9, if_neg h10, if_pos h11]⟩)))
  · exact Or.inr (Or.inr (Or.inr (Or.inr ⟨⟨hd', h9', h10', not_not.mp h11⟩,
      by rw [hm, if_neg hd, if_neg h9, if_neg h10, if_neg h11]⟩)))

/-- Every run that reaches the normal return passed every check on the
way there: setup, the probe assertions, a loop ending in `break`, the
final page-count/remaining assertions, and `Finish` itself. -/
theorem main_success_inv (eng : Engine) (fuel : Nat) (r : RunResult)
    (h : main eng fuel = some r) (hf : r.fatal = none) :
    setupOk eng ∧ eng.stepErr 0 = false ∧ probeOk eng ∧
    ∃ l, loop eng (eng.pageCount 0) (eng.timeNow 0) fuel 0 (eng.remaining 0) =
           some (none, l) ∧
      eng.pageCount (l.length + 1) = eng.pageCount 0 ∧
      eng.remaining (l.length + 1) = 0 ∧ eng.finishFails = false ∧
      r = { fatal := none, srcOpened := true, dstOpened := true, srcClosed := true,
            dstClosed := true, backupCreated := true, stepSizes := 0 :: l,
            finishCalls := 1 } := by
  unfold main at h
  by_cases hb1 : eng.openSrcFails = true
  · rw [if_pos hb1] at h; injection h with h; subst h; simp [fatalResult] at hf
  rw [if_neg hb1] at h
  by_cases hb2 : eng.openDstFails = true
  · rw [if_pos hb2] at h; injection h with h; subst h; simp [fatalResult] at hf
  rw [if_neg hb2] at h
  by_cases hb3 : eng.connCount ≠ 2
  · rw [if_pos hb3] at h; injection h with h; subst h; simp [fatalResult] at hf
  rw [if_neg hb3] at h
  by_cases hb4 : eng.connIsNil 0 = true
  · rw [if_pos hb4] at h; injection h with h; subst h; simp [fatalResult] at hf
  rw [if_neg hb4] at h
  by_cases hb5 : eng.connIsNil 1 = true
  · rw [if_pos hb5] at h; injection h with h; subst h; simp [fatalResult] at hf
  rw [if_neg hb5] at h
  by_cases hb6 : eng.backupFails = true
  · rw [if_pos hb6] at h; injection h with h; subst h; simp [fatalResult] at hf
  rw [if_neg hb6] at h
  by_cases hb7 : eng.stepErr 0 = true
  · rw [if_pos hb7] at h; injection h with h; subst h; simp [fatalResult] at hf
  rw [if_neg hb7] at h
  by_cases hb8 : eng.stepDone 0 = true
  · rw [if_pos hb8] at h; injection h with h; subst h; simp [fatalResult] at hf
  rw [if_neg hb8] at h
  by_cases hb9 : eng.pageCount 0 ≤ 0
  · rw [if_pos hb9] at h; injection h with h; subst h; simp [fatalResult] at hf
  rw [if_neg hb9] at h
  by_cases hb10 : eng.remaining 0 ≤ 0
  · rw [if_pos hb10] at h; injection h with h; subst h; simp [fatalResult] at hf
  rw [if_neg hb10] at h
  by_cases hb11 : eng.remaining 0 ≠ eng.pageCount 0
  · rw [if_pos hb11] at h; injection h with h; subst h; simp [fatalResult] at hf
  rw [if_neg hb11] at h
  generalize hres :
    loop eng (eng.pageCount 0) (eng.timeNow 0) fuel 0 (eng.remaining 0) = L at h
  rcases L with - | ⟨res0, l⟩
  · simp [afterLoop] at h
  rcases res0 with - | k
  · simp only [afterLoop] at h
    by_cases hc1 : eng.pageCount (l.length + 1) ≠ eng.pageCount 0
    · rw [if_pos hc1] at h; injection h with h; subst h; simp [fatalResult] at hf
    rw [if_neg hc1] at h
    by_cases hc2 : eng.remaining (l.length + 1) ≠ 0
    · rw [if_pos hc2] at h; injection h with h; subst h; simp [fatalResult] at hf
    rw [if_neg hc2] at h
    by_cases hc3 : eng.finishFails = true
    · rw [if_pos hc3] at h; injection h with h; subst h; simp [fatalResult] at hf
    rw [if_neg hc3] at h
    injection h with h; subst h
    exact ⟨⟨by simpa using hb1, by simpa using hb2, not_not.mp hb3,
            by simpa using hb4, by simpa using hb5, by simpa using hb6⟩,
           by simpa using hb7,
           ⟨by simpa using hb8, by omega, by omega, not_not.mp hb11⟩,
           l, rfl, not_not.mp hc1, not_not.mp hc2, by simpa using hc3, rfl⟩
  · simp only [afterLoop] at h
    injection h with h; subst h
    simp [fatalResult] at hf

/-- Whatever the loop returned, `afterLoop` reports the zero-page probe
followed by the loop's own steps. -/
theorem afterLoop_stepSizes (eng : Engine) (ipc : Int)
    (res : Option (Option FatalKind × List Nat)) (r : RunResult)
    (h : afterLoop eng ipc res = some r) :
    ∃ res0 l, res = some (res0, l) ∧ r.stepSizes = 0 :: l := by
  rcases res with - | ⟨res0, l⟩
  · simp [afterLoop] at h
  rcases res0 with - | k
  · refine ⟨none, l, rfl, ?_⟩
    simp only [afterLoop] at h
    by_cases hc1 : eng.pageCount (l.length + 1) ≠ ipc
    · rw [if_pos hc1] at h; injection h with h; rw [← h]
    rw [if_neg hc1] at h
    by_cases hc2 : eng.remaining (l.length + 1) ≠ 0
    · rw [if_pos hc2] at h; injection h with h; rw [← h]
    rw [if_neg hc2] at h
    by_cases hc3 : eng.finishFails = true
    · rw [if_pos hc3] at h; injection h with h; rw [← h]
    · rw [if_neg hc3] at h; injection h with h; rw [← h]
  · refine ⟨some k, l, rfl, ?_⟩
    simp only [afterLoop] at h
    injection h with h; rw [← h]

/-- The stepping loop never reads the two `Ping` outcomes. -/
theorem loop_ping_eq (e : Engine) (b1 b2 : Bool) (ipc st : Int) :
    ∀ (fuel i : Nat) (r : Int),
      loop { e with pingSrcFails := b1, pingDstFails := b2 } ipc st fuel i r =
        loop e ipc st fuel i r := by
  intro fuel
  induction fuel with
  | zero => intro i r; rfl
  | succ n ih =>
    intro i r
    simp only [loop]
    rw [ih]

/-- The post-loop checks never read the two `Ping` outcomes. -/
theorem afterLoop_ping_eq (e : Engine) (b1 b2 : Bool) (ipc : Int)
    (res : Option (Option FatalKind × List Nat)) :
    afterLoop { e with pingSrcFails := b1, pingDstFails := b2 } ipc res =
      afterLoop e ipc res := by
  rcases res with - | ⟨res0, l⟩
  · rfl
  rcases res0 with - | k
  · rfl
  · rfl

/-! ## The claims -/

/-- C1: In the stepping loop, after every one-page step the harness
asserts that the session's page count equals the initially captured page
count and that the remaining count equals the previous remaining count
minus exactly 1, aborting the run fatally on any deviation (first two
conjuncts); hence for every loop iteration that does not abort at those
checks, remaining strictly decreases by 1 and the page count is unchanged
(third conjunct). -/
theorem loop_step_invariant (eng : Engine) (ipc st : Int) (fuel i : Nat) (r : Int) :
    (eng.stepErr (i + 1) = false → eng.pageCount (i + 1) ≠ ipc →
       loop eng ipc st (fuel + 1) i r = some (some .pageCountChanged, [1])) ∧
    (eng.stepErr (i + 1) = false → eng.pageCount (i + 1) = ipc →
       eng.remaining (i + 1) ≠ r - 1 →
       loop eng ipc st (fuel + 1) i r = some (some .unexpectedRemaining, [1])) ∧
    (loop eng ipc st (fuel + 1) i r ≠ some (some .stepFailed, [1]) →
     loop eng ipc st (fuel + 1) i r ≠ some (some .pageCountChanged, [1]) →
     loop eng ipc st (fuel + 1) i r ≠ some (some .unexpectedRemaining, [1]) →
     eng.pageCount (i + 1) = ipc ∧ eng.remaining (i + 1) = r - 1) := by
  refine ⟨?_, ?_, ?_⟩
  · intro h1 h2
    simp only [loop]
    rw [if_neg (by simp [h1]), if_pos h2]
  · intro h1 h2 h3
    simp only [loop]
    rw [if_neg (by simp [h1]), if_neg (by simp [h2]), if_pos h3]
  · intro h1 h2 h3
    by_cases hs : eng.stepErr (i + 1) = true
    · exact absurd (by simp only [loop]; rw [if_pos hs]) h1
    by_cases hpc : eng.pageCount (i + 1) = ipc
    · by_cases hr : eng.remaining (i + 1) = r - 1
      · exact ⟨hpc, hr⟩
      · refine absurd ?_ h3
        simp only [loop]
        rw [if_neg hs, if_neg (by simp [hpc]), if_pos hr]
    · refine absurd ?_ h2
      simp only [loop]
      rw [if_neg hs, if_pos hpc]

/-- Witness for `loop_step_invariant`: against the 2-page engine,
iteration 0 aborts at none of the three checks, and indeed the page count
is unchanged and remaining dropped by exactly one. -/
theorem loop_step_invariant_witness :
    (goodEngine 2).pageCount 1 = 2 ∧ (goodEngine 2).remaining 1 = 2 - 1 :=
  (loop_step_invariant (goodEngine 2) 2 0 7 0 2).2.2
    (by decide) (by decide) (by decide)

/-- C2: after creating the backup session the harness issues exactly one
zero-page probe step before any one-page copying step (last conjunct:
every terminating run's step trace is the probe followed by one-page
steps); it aborts fatally when the probe reports done, when the initial
page count is not strictly positive, when the initial remaining count is
not strictly positive, or when the two differ (first four conjuncts, in
source order); otherwise the loop starts with the captured values (fifth
conjunct). -/
theorem probe_phase (eng : Engine) (fuel : Nat)
    (hs : setupOk eng) (hp : eng.stepErr 0 = false) :
    (eng.stepDone 0 = true →
       main eng fuel = some { fatalResult .unexpectedlyDone with
                                backupCreated := true, stepSizes := [0] }) ∧
    (eng.stepDone 0 = false → eng.pageCount 0 ≤ 0 →
       main eng fuel = some { fatalResult .badInitialPageCount with
                                backupCreated := true, stepSizes := [0] }) ∧
    (eng.stepDone 0 = false → 0 < eng.pageCount 0 → eng.remaining 0 ≤ 0 →
       main eng fuel = some { fatalResult .badInitialRemaining with
                                backupCreated := true, stepSizes := [0] }) ∧
    (eng.stepDone 0 = false → 0 < eng.pageCount 0 → 0 < eng.remaining 0 →
       eng.remaining 0 ≠ eng.pageCount 0 →
       main eng fuel = some { fatalResult .initialMismatch with
                                backupCreated := true, stepSizes := [0] }) ∧
    (probeOk eng →
       main eng fuel = afterLoop eng (eng.pageCount 0)
         (loop eng (eng.pageCount 0) (eng.timeNow 0) fuel 0 (eng.remaining 0))) ∧
    (∀ r, main eng fuel = some r → ∃ n, r.stepSizes = 0 :: List.replicate n 1) := by
  refine ⟨?_, ?_, ?_, ?_, ?_, ?_⟩
  · intro hd
    rcases main_probe_cases eng fuel hs hp with
      ⟨-, hm⟩ | ⟨hd', -, -⟩ | ⟨hd', -, -, -⟩ | ⟨hd', -, -, -, -⟩ | ⟨hq, -⟩
    · exact hm
    · exact absurd hd (by simp [hd'])
    · exact absurd hd (by simp [hd'])
    · exact absurd hd (by simp [hd'])
    · exact absurd hd (by simp [hq.1])
  · intro hd hle
    rcases main_probe_cases eng fuel hs hp with
      ⟨hd1, -⟩ | ⟨-, -, hm⟩ | ⟨-, hpos, -, -⟩ | ⟨-, hpos, -, -, -⟩ | ⟨hq, -⟩
    · exact absurd hd1 (by simp [hd])
    · exact hm
    · omega
    · omega
    · have := hq.2.1; omega
  · intro hd hpos hrle
    rcases main_probe_cases eng fuel hs hp with
      ⟨hd1, -⟩ | ⟨-, hle, -⟩ | ⟨-, -, -, hm⟩ | ⟨-, -, hrpos, -, -⟩ | ⟨hq, -⟩
    · exact absurd hd1 (by simp [hd])
    · omega
    · exact hm
    · omega
    · have := hq.2.2.1; omega
  · intro hd hpos hrpos hne
    rcases main_probe_cases eng fuel hs hp with
      ⟨hd1, -⟩ | ⟨-, hle, -⟩ | ⟨-, -, hrle, -⟩ | ⟨-, -, -, -, hm⟩ | ⟨hq, -⟩
    · exact absurd hd1 (by simp [hd])
    · omega
    · omega
    · exact hm
    · exact absurd hq.2.2.2 hne
  · intro hq
    rcases main_probe_cases eng fuel hs hp with
      ⟨hd1, -⟩ | ⟨-, hle, -⟩ | ⟨-, -, hrle, -⟩ | ⟨-, -, -, hne, -⟩ | ⟨-, hm⟩
    · exact absurd hd1 (by simp [hq.1])
    · have := hq.2.1; omega
    · have := hq.2.2.1; omega
    · exact absurd hq.2.2.2 hne
    · exact hm
  · intro r hr
    rcases main_probe_cases eng fuel hs hp with
      ⟨-, hm⟩ | ⟨-, -, hm⟩ | ⟨-, -, -, hm⟩ | ⟨-, -, -, -, hm⟩ | ⟨-, hm⟩
    · rw [hm] at hr; injection hr with hr; exact ⟨0, by rw [← hr]; rfl⟩
    · rw [hm] at hr; injection hr with hr; exact ⟨0, by rw [← hr]; rfl⟩
    · rw [hm] at hr; injection hr with hr; exact ⟨0, by rw [← hr]; rfl⟩
    · rw [hm] at hr; injection hr with hr; exact ⟨0, by rw [← hr]; rfl⟩
    · rw [hm] at hr
      obtain ⟨res0, l, hres, hss⟩ := afterLoop_stepSizes _ _ _ _ hr
      have hones :=
        loop_ones eng (eng.pageCount 0) (eng.timeNow 0) fuel 0 (eng.remaining 0) res0 l hres
      refine ⟨l.length, ?_⟩
      rw [hss, ← hones]

/-- Witness for `probe_phase`: the 2-page engine passes setup and probe,
so the run is the loop entered with page count 2, remaining 2. -/
theorem probe_phase_witness :
    main (goodEngine 2) 8 =
      afterLoop (goodEngine 2) ((goodEngine 2).pageCount 0)
        (loop (goodEngine 2) ((goodEngine 2).pageCount 0)
          ((goodEngine 2).timeNow 0) 8 0 ((goodEngine 2).remaining 0)) :=
  (probe_phase (goodEngine 2) 8 (by decide) (by decide)).2.2.2.2.1
    (by refine ⟨by decide, by decide, by decide, by decide⟩)

/-- C3: the stepping loop exits normally only when a step reports done
(the last issued step of a clean run reported done); after exit the
harness asserts the final page count equals the initial page count and
the final remaining count is 0, and only after these assertions pass is
`Finish` called, exactly once, on the successful path (first conjunct);
runs aborting at either final assertion never call `Finish` (second
conjunct). -/
theorem loop_exit_and_finish (eng : Engine) (fuel : Nat) (r : RunResult)
    (h : main eng fuel = some r) :
    (r.fatal = none →
       ∃ l, r.stepSizes = 0 :: l ∧ eng.stepDone l.length = true ∧
         eng.pageCount (l.length + 1) = eng.pageCount 0 ∧
         eng.remaining (l.length + 1) = 0 ∧ r.finishCalls = 1) ∧
    ((r.fatal = some FatalKind.finalPageCountDiffers ∨
      r.fatal = some FatalKind.finalRemainingNonzero) →
       r.finishCalls = 0) := by
  constructor
  · intro hf
    obtain ⟨-, -, -, l, hloop, hpc, hrem, -, hr⟩ := main_success_inv eng fuel r h hf
    have hdone := (loop_done_last eng (eng.pageCount 0) (eng.timeNow 0) fuel 0
      (eng.remaining 0) l hloop).2
    exact ⟨l, by rw [hr], by simpa using hdone, hpc, hrem, by rw [hr]⟩
  · intro hk
    have hsh := main_shape eng fuel r h
    have h1 := hsh.1
    have h2 := hsh.2.1
    rcases hk with hk | hk <;> rw [hk] at h1 <;> simp at h1 <;> omega

/-- Witness for `loop_exit_and_finish`: the clean 3-page run ends with a
done-reporting third step, equal final and initial page counts, zero
remaining, and one `Finish` call. -/
theorem loop_exit_and_finish_witness :
    ∃ l, (goodRun 3).stepSizes = 0 :: l ∧
      (goodEngine 3).stepDone l.length = true ∧
      (goodEngine 3).pageCount (l.length + 1) = (goodEngine 3).pageCount 0 ∧
      (goodEngine 3).remaining (l.length + 1) = 0 ∧
      (goodRun 3).finishCalls = 1 :=
  (loop_exit_and_finish (goodEngine 3) 9 (goodRun 3) (by decide)).1 rfl

/-- C4: the timeout is the constant 10; when a one-page step passes its
checks but does not report done and the wall clock read after it exceeds
`startTime + timeout`, the loop aborts with the timeout failure having
issued only that one step (so before issuing the next one); and a run
ending in the timeout failure never calls `Finish` on the non-done
session. -/
theorem timeout_aborts :
    timeout = 10 ∧
    (∀ (eng : Engine) (ipc st : Int) (fuel i : Nat) (r : Int),
       eng.stepErr (i + 1) = false → eng.pageCount (i + 1) = ipc →
       eng.remaining (i + 1) = r - 1 → eng.stepDone (i + 1) = false →
       eng.timeNow (i + 1) - st > timeout →
       loop eng ipc st (fuel + 1) i r = some (some .timeoutExceeded, [1])) ∧
    (∀ (eng : Engine) (fuel : Nat) (r : RunResult),
       main eng fuel = some r → r.fatal = some FatalKind.timeoutExceeded →
       r.finishCalls = 0) := by
  refine ⟨rfl, ?_, ?_⟩
  · intro eng ipc st fuel i r h1 h2 h3 h4 h5
    simp only [loop]
    rw [if_neg (by simp [h1]), if_neg (by simp [h2]), if_neg (by simp [h3]),
        if_neg (by simp [h4]), if_pos h5]
  · intro eng fuel r h hk
    have hsh := main_shape eng fuel r h
    have h1 := hsh.1
    have h2 := hsh.2.1
    rw [hk] at h1
    simp at h1
    omega

/-- Witness for `timeout_aborts`: the slow-clock engine's first loop
iteration steps cleanly but reads a clock 100 seconds past `startTime`
and aborts with the timeout failure. -/
theorem timeout_aborts_witness :
    loop slowClockEngine 5 0 (7 + 1) 0 5 = some (some .timeoutExceeded, [1]) :=
  timeout_aborts.2.1 slowClockEngine 5 0 7 0 5
    (by decide) (by decide) (by decide) (by decide) (by decide)

/-- C5 is FALSE as stated: on the timeout failure path of the slow-clock
engine, a backup session was created but `Finish` is called zero times,
not once — `log.Fatal` exits the process without finalizing. -/
theorem finish_every_path_cex :
    ¬ (∀ r : RunResult, main slowClockEngine 8 = some r →
         r.backupCreated = true → r.finishCalls = 1) := by
  intro hall
  have h := hall { fatalResult .timeoutExceeded with
                     backupCreated := true, stepSizes := [0, 1] } (by decide) rfl
  simp [fatalResult] at h

/-- C5 (amended): `Finish` is called at most once on every run; it is
called exactly once precisely on the normal path and on the path where
`Finish` itself fails, and zero times on every other failure path. -/
theorem finish_exactly_on_success (eng : Engine) (fuel : Nat) (r : RunResult)
    (h : main eng fuel = some r) :
    r.finishCalls ≤ 1 ∧
    (r.finishCalls = 1 ↔
      (r.fatal = none ∨ r.fatal = some FatalKind.finishFailed)) := by
  have hsh := main_shape eng fuel r h
  exact ⟨hsh.2.1, hsh.1⟩

/-- Witness for `finish_exactly_on_success` at the clean 2-page run. -/
theorem finish_exactly_on_success_witness :
    (goodRun 2).finishCalls ≤ 1 ∧
    ((goodRun 2).finishCalls = 1 ↔
      ((goodRun 2).fatal = none ∨ (goodRun 2).fatal = some FatalKind.finishFailed)) :=
  finish_exactly_on_success (goodEngine 2) 8 (goodRun 2) (by decide)

/-- C6 is FALSE as stated: when the destination open fails, the source
handle was opened but its deferred `Close` never runs — `log.Fatal` calls
`os.Exit`, which skips deferred functions. -/
theorem close_on_fatal_cex :
    ¬ (∀ r : RunResult, main openDstFailEngine 8 = some r →
         r.srcOpened = true → r.srcClosed = true) := by
  intro hall
  have h := hall { fatalResult .openDstFailed with dstOpened := false } (by decide) rfl
  simp [fatalResult] at h

/-- C6 (amended): the two handles are closed exactly on the normal exit
path; on every fatal exit (including early ones) neither deferred `Close`
runs, because `log.Fatal` terminates the process via `os.Exit`. -/
theorem close_policy (eng : Engine) (fuel : Nat) (r : RunResult)
    (h : main eng fuel = some r) :
    (r.srcClosed = true ↔ r.fatal = none) ∧
    (r.dstClosed = true ↔ r.fatal = none) := by
  have hsh := main_shape eng fuel r h
  exact ⟨hsh.2.2.1, hsh.2.2.2.1⟩

/-- Witness for `close_policy` at the clean 4-page run. -/
theorem close_policy_witness :
    ((goodRun 4).srcClosed = true ↔ (goodRun 4).fatal = none) ∧
    ((goodRun 4).dstClosed = true ↔ (goodRun 4).fatal = none) :=
  close_policy (goodEngine 4) 10 (goodRun 4) (by decide)

/-- C7 is FALSE as stated: for an empty source (zero pages — per the
spec, the probe reports done with page count 0, modelled by
`goodEngine 0`) the run does not abort at the strictly-positive
assertions; it aborts earlier, at the probe's done-assertion. -/
theorem empty_source_cex :
    ¬ (∀ r : RunResult, main (goodEngine 0) 8 = some r →
         (r.fatal = some FatalKind.badInitialPageCount ∨
          r.fatal = some FatalKind.badInitialRemaining)) := by
  intro hall
  have h := hall { fatalResult .unexpectedlyDone with
                     backupCreated := true, stepSizes := [0] } (by decide)
  simp [fatalResult] at h

/-- C7 (amended): for the empty source the probe reports done with page
count 0, and the probe's done-assertion terminates the run fatally at the
probe stage — before the strictly-positive assertions are reached — so no
empty backup completes and `Finish` is never called (the fatal trace has
`finishCalls = 0` and only the probe step issued). -/
theorem empty_source_aborts (fuel : Nat) :
    (goodEngine 0).pageCount 0 = 0 ∧ (goodEngine 0).stepDone 0 = true ∧
    main (goodEngine 0) fuel =
      some { fatalResult .unexpectedlyDone with
               backupCreated := true, stepSizes := [0] } :=
  ⟨rfl, rfl, rfl⟩

/-- C8 is FALSE in its second half: with both `Ping` calls failing, the
4-page run's observable outcome is identical, bit for bit, to the run
where both pings succeed, and it completes normally — nothing terminates
the run (the first half holds) but nothing surfaces the failure either:
the code discards the `Ping` errors without logging them. -/
theorem ping_surfaced_cex :
    main pingFailEngine 8 = main (goodEngine 4) 8 ∧
    main pingFailEngine 8 = some (goodRun 4) :=
  ⟨by decide, by decide⟩

/-- C8 (amended): a failing liveness probe on either handle does not
terminate the run, and it is not surfaced anywhere either: the run's
observable outcome is independent of both `Ping` results, because the
code discards their errors without logging. -/
theorem ping_ignored (eng : Engine) (fuel : Nat) (b1 b2 : Bool) :
    main { eng with pingSrcFails := b1, pingDstFails := b2 } fuel =
      main eng fuel := by
  unfold main
  rw [loop_ping_eq, afterLoop_ping_eq]

/-- C9: after the two opens, if the instrumentation hook captured any
number of connections other than 2, or the first or second captured
connection is nil, the run aborts fatally at the corresponding
configuration check (in source order), whose outcome records that no
backup session was ever created. -/
theorem conn_capture_check (eng : Engine) (fuel : Nat)
    (h1 : eng.openSrcFails = false) (h2 : eng.openDstFails = false) :
    (eng.connCount ≠ 2 → main eng fuel = some (fatalResult .wrongConnCount)) ∧
    (eng.connCount = 2 → eng.connIsNil 0 = true →
       main eng fuel = some (fatalResult .srcConnNil)) ∧
    (eng.connCount = 2 → eng.connIsNil 0 = false → eng.connIsNil 1 = true →
       main eng fuel = some (fatalResult .dstConnNil)) ∧
    (fatalResult FatalKind.wrongConnCount).backupCreated = false ∧
    (fatalResult FatalKind.srcConnNil).backupCreated = false ∧
    (fatalResult FatalKind.dstConnNil).backupCreated = false := by
  refine ⟨?_, ?_, ?_, rfl, rfl, rfl⟩
  · intro hc
    unfold main
    rw [if_neg (by simp [h1]), if_neg (by simp [h2]), if_pos hc]
  · intro hc hn
    unfold main
    rw [if_neg (by simp [h1]), if_neg (by simp [h2]), if_neg (by simp [hc]),
        if_pos hn]
  · intro hc hn0 hn1
    unfold main
    rw [if_neg (by simp [h1]), if_neg (by simp [h2]), if_neg (by simp [hc]),
        if_neg (by simp [hn0]), if_pos hn1]

/-- Witness for `conn_capture_check`: three captured connections abort
the run at the connection-count check. -/
theorem conn_capture_check_witness :
    main badConnEngine 8 = some (fatalResult FatalKind.wrongConnCount) :=
  (conn_capture_check badConnEngine 8 rfl rfl).1 (by decide)

/-- C10: inside the loop the done check precedes the deadline check: an
iteration whose step passes its checks and reports done exits the loop
normally whatever the clock says (first conjunct — the conclusion does
not depend on `timeNow`), and concretely a 1-page run whose only step
completes 100 time units past `startTime` (deadline 10) still finishes
successfully (second conjunct). -/
theorem done_check_precedes_deadline :
    (∀ (eng : Engine) (ipc st : Int) (fuel i : Nat) (r : Int),
       eng.stepErr (i + 1) = false → eng.pageCount (i + 1) = ipc →
       eng.remaining (i + 1) = r - 1 → eng.stepDone (i + 1) = true →
       loop eng ipc st (fuel + 1) i r = some (none, [1])) ∧
    (main lateDoneEngine 8 = some (goodRun 1) ∧ (goodRun 1).fatal = none ∧
     lateDoneEngine.timeNow 1 - lateDoneEngine.timeNow 0 > timeout) := by
  constructor
  · intro eng ipc st fuel i r h1 h2 h3 h4
    simp only [loop]
    rw [if_neg (by simp [h1]), if_neg (by simp [h2]), if_neg (by simp [h3]),
        if_pos h4]
  · exact ⟨by decide, rfl, by decide⟩

/-- Witness for `done_check_precedes_deadline`: the late-done engine's
single loop iteration reads past-deadline time yet exits normally. -/
theorem done_check_precedes_deadline_witness :
    loop lateDoneEngine 1 0 (7 + 1) 0 1 = some (none, [1]) :=
  done_check_precedes_deadline.1 lateDoneEngine 1 0 7 0 1
    (by decide) (by decide) (by decide) (by decide)

end SqliteBackup
